import Mathlib

/-!
Verification of the storyvps Instagram story downloader (src/app.py,
src/config.py) against its natural-language specification.

The Python code is shallowly embedded: JSON-like runtime values are the
inductive type `JVal` (JSON numbers are modelled as integers; floating
point payloads are out of scope), Python operations that can raise are
functions into `Except PyErr`, and the application-level `InstagramError`
is a separate error class `IGErr`.  Each embedded definition mirrors one
function of the source.
-/

namespace StoryVPS

/-- A single quote character, kept out of string literals. -/
def sq : String := String.singleton (Char.ofNat 39)

/-- JSON-like Python runtime values: None, bool, int, str, list, dict.
JSON numbers are modelled as integers; dict keys are strings (as produced
by json.loads). -/
inductive JVal where
  | null
  | bool (b : Bool)
  | num (n : Int)
  | str (s : String)
  | arr (xs : List JVal)
  | obj (kvs : List (String × JVal))

/-- Python exception classes reachable in the embedded code, with a small
payload standing in for the exception message. -/
inductive PyErr where
  | attrError (a : String)
  | keyError (k : String)
  | typeError (m : String)
  | valueError (m : String)
deriving DecidableEq

/-- The application exception `InstagramError(message, status_code)`. -/
structure IGErr where
  message : String
  status_code : Nat
deriving DecidableEq

/-- Errors escaping an embedded application function: either a plain
Python exception or an `InstagramError`. -/
inductive Err where
  | py (e : PyErr)
  | ig (e : IGErr)
deriving DecidableEq

/-- First-match association-list lookup; the dicts built by the embedded
code have pairwise-distinct keys, so this agrees with Python dict lookup. -/
def assocLookup (k : String) : List (String × JVal) → Option JVal
  | [] => none
  | (k2, v) :: tl => if k = k2 then some v else assocLookup k tl

/-- Python truthiness for the modelled values. -/
def pyTruthy : JVal → Bool
  | .null => false
  | .bool b => b
  | .num n => n != 0
  | .str s => s ≠ ""
  | .arr xs => !xs.isEmpty
  | .obj kvs => !kvs.isEmpty

/-- Python `x.get(k, d)`: dict lookup with default, AttributeError on
non-dicts. -/
def dictGet (x : JVal) (k : String) (d : JVal) : Except PyErr JVal :=
  match x with
  | .obj kvs =>
    match assocLookup k kvs with
    | some v => .ok v
    | none => .ok d
  | _ => .error (.attrError "get")

/-- Python `x[k]` for a string key: KeyError when missing, TypeError when
`x` is not a dict. -/
def pyIndex (x : JVal) (k : String) : Except PyErr JVal :=
  match x with
  | .obj kvs =>
    match assocLookup k kvs with
    | some v => .ok v
    | none => .error (.keyError k)
  | _ => .error (.typeError "indices must be integers")

/-- Coercion used by Python arithmetic and comparisons: bools count as
integers. -/
def toNum : JVal → Option Int
  | .num n => some n
  | .bool b => some (if b then 1 else 0)
  | _ => none

mutual

/-- Python `==` on the modelled values: numeric cross-comparison of bool
and int, structural comparison of lists.  Dicts are compared here in
insertion order (Python compares them as unordered maps, but no path of
the embedded code compares two dicts). -/
def pyEq : JVal → JVal → Bool
  | .null, .null => true
  | .str a, .str b => a == b
  | .arr xs, .arr ys => pyEqList xs ys
  | .obj a, .obj b => pyEqObj a b
  | a, b =>
    match toNum a, toNum b with
    | some x, some y => x == y
    | _, _ => false

/-- Elementwise Python equality of two lists. -/
def pyEqList : List JVal → List JVal → Bool
  | [], [] => true
  | x :: xs, y :: ys => pyEq x y && pyEqList xs ys
  | _, _ => false

/-- Pairwise Python equality of two dicts in insertion order. -/
def pyEqObj : List (String × JVal) → List (String × JVal) → Bool
  | [], [] => true
  | (k, v) :: xs, (k2, v2) :: ys => k == k2 && pyEq v v2 && pyEqObj xs ys
  | _, _ => false

end

mutual

/-- Python `a > b`: numeric for ints/bools, lexicographic for strings and
lists, TypeError on mixed or unordered types. -/
def pyGt : JVal → JVal → Except PyErr Bool
  | .str a, .str b => .ok (decide (b < a))
  | .arr xs, .arr ys => pyGtList xs ys
  | a, b =>
    match toNum a, toNum b with
    | some x, some y => .ok (decide (y < x))
    | _, _ => .error (.typeError "unsupported comparison")

/-- Python `>` on lists: first differing elements decide, else length. -/
def pyGtList : List JVal → List JVal → Except PyErr Bool
  | [], [] => .ok false
  | [], _ :: _ => .ok false
  | _ :: _, [] => .ok true
  | x :: xs, y :: ys =>
    if pyEq x y then pyGtList xs ys else pyGt x y

end

/-- Python `a * b` restricted to the modelled values: int product (with
bool coercion), string and list repetition, TypeError otherwise. -/
def pyMul (a b : JVal) : Except PyErr JVal :=
  match toNum a, toNum b with
  | some x, some y => .ok (.num (x * y))
  | some x, none =>
    match b with
    | .str s => .ok (.str (String.join (List.replicate x.toNat s)))
    | .arr l => .ok (.arr (List.flatten (List.replicate x.toNat l)))
    | _ => .error (.typeError "unsupported operand")
  | none, some y =>
    match a with
    | .str s => .ok (.str (String.join (List.replicate y.toNat s)))
    | .arr l => .ok (.arr (List.flatten (List.replicate y.toNat l)))
    | _ => .error (.typeError "unsupported operand")
  | none, none => .error (.typeError "unsupported operand")

/-- Python iteration: lists yield their elements, strings their
characters, dicts their keys; other values raise TypeError. -/
def pyIter : JVal → Except PyErr (List JVal)
  | .arr xs => .ok xs
  | .str s => .ok (s.data.map (fun c => .str (String.singleton c)))
  | .obj kvs => .ok (kvs.map (fun kv => .str kv.1))
  | _ => .error (.typeError "not iterable")

/-- Python substring test `needle in hay` on character lists: true when
`needle` occurs contiguously inside `hay`. -/
def subIn (needle : List Char) : List Char → Bool
  | [] => needle.isEmpty
  | c :: t => needle.isPrefixOf (c :: t) || subIn needle t

/-- Python `needle in container`: key test for dicts, membership for
lists, substring for strings. -/
def pyIn (needle : JVal) (container : JVal) : Except PyErr Bool :=
  match container with
  | .obj kvs =>
    match needle with
    | .str k => .ok ((assocLookup k kvs).isSome)
    | .arr _ => .error (.typeError "unhashable type")
    | .obj _ => .error (.typeError "unhashable type")
    | _ => .ok false
  | .arr xs => .ok (xs.any (fun x => pyEq needle x))
  | .str s =>
    match needle with
    | .str t => .ok (subIn t.data s.data)
    | _ => .error (.typeError "requires string as left operand")
  | _ => .error (.typeError "argument is not iterable")

mutual

/-- Python `str(x)` for the modelled values (repr escaping inside
containers is elided; no embedded code path inspects such a rendering). -/
def pyStr : JVal → String
  | .null => "None"
  | .bool b => if b then "True" else "False"
  | .num n => toString n
  | .str s => s
  | .arr xs => "[" ++ pyReprList xs ++ "]"
  | .obj kvs => "\x7b" ++ pyReprObj kvs ++ "\x7d"

/-- Python `repr(x)`, used by `str` on container elements. -/
def pyRepr : JVal → String
  | .null => "None"
  | .bool b => if b then "True" else "False"
  | .num n => toString n
  | .str s => sq ++ s ++ sq
  | .arr xs => "[" ++ pyReprList xs ++ "]"
  | .obj kvs => "\x7b" ++ pyReprObj kvs ++ "\x7d"

/-- Comma-separated reprs of list elements. -/
def pyReprList : List JVal → String
  | [] => ""
  | [x] => pyRepr x
  | x :: rest => pyRepr x ++ ", " ++ pyReprList rest

/-- Comma-separated reprs of dict entries. -/
def pyReprObj : List (String × JVal) → String
  | [] => ""
  | [(k, v)] => sq ++ k ++ sq ++ ": " ++ pyRepr v
  | (k, v) :: rest => sq ++ k ++ sq ++ ": " ++ pyRepr v ++ ", " ++ pyReprObj rest

end

/-- The key function `lambda x: x.get("width", 0) * x.get("height", 0)`
passed to `max` at both candidate-selection sites of `_extract_story`. -/
def area_key (x : JVal) : Except PyErr JVal := do
  let w ← dictGet x "width" (.num 0)
  let h ← dictGet x "height" (.num 0)
  pyMul w h

/-- Iteration phase of Python `max(..., key=f)`: keeps the current best,
replacing it only on a strictly greater key, so the first of several
maximal elements wins. -/
def pyMaxGo (key : JVal → Except PyErr JVal) (best bestK : JVal) :
    List JVal → Except PyErr JVal
  | [] => .ok best
  | y :: ys => do
    let ky ← key y
    let g ← pyGt ky bestK
    if g then pyMaxGo key y ky ys else pyMaxGo key best bestK ys

/-- Python `max(iterable, key=f)`. -/
def pyMaxKey (key : JVal → Except PyErr JVal) (j : JVal) :
    Except PyErr JVal := do
  let xs ← pyIter j
  match xs with
  | [] => .error (.valueError "max arg is an empty sequence")
  | x :: rest => do
    let kx ← key x
    pyMaxGo key x kx rest

/-- The story dict built by `InstagramClient._extract_story`.  Fields
keep the raw payload values; only the two `pk` fields pass through
`str(...)` in the source.  `thumbnail_url` and `video_url` start as
None (`JVal.null`). -/
structure Story where
  pk : String
  id : JVal
  code : JVal
  taken_at : JVal
  media_type : JVal
  user_pk : String
  username : JVal
  full_name : JVal
  profile_pic_url : JVal
  thumbnail_url : JVal
  video_url : JVal
  video_duration : JVal

/-- The best-quality-thumbnail block of `_extract_story` (src/app.py
lines 494-499): when `"image_versions2" in data` and its candidate list
is truthy, the URL of the max-area candidate, else the initial None. -/
def thumb_part (data : JVal) : Except PyErr JVal := do
  let hasIV ← pyIn (.str "image_versions2") data
  if hasIV then do
    let iv ← pyIndex data "image_versions2"
    let cands ← dictGet iv "candidates" (.arr [])
    if pyTruthy cands then do
      let best ← pyMaxKey area_key cands
      dictGet best "url" .null
    else pure .null
  else pure .null

/-- The best-quality-video block of `_extract_story` (src/app.py lines
501-506): only when `data.get("media_type") == 2` and
`"video_versions" in data` and the version list is truthy, the URL of
the max-area version, else the initial None. -/
def video_part (data : JVal) : Except PyErr JVal := do
  let mtv ← dictGet data "media_type" .null
  if pyEq mtv (.num 2) then do
    let hasVV ← pyIn (.str "video_versions") data
    if hasVV then do
      let versions ← pyIndex data "video_versions"
      if pyTruthy versions then do
        let best ← pyMaxKey area_key versions
        dictGet best "url" .null
      else pure .null
    else pure .null
  else pure .null

/-- Body of `InstagramClient._extract_story` (src/app.py lines 476-508),
before the surrounding `except Exception` handler.  The source evaluates
`data.get("user", \x7b\x7d)` once per owner field; the repeated pure
expression is folded into one evaluation with identical semantics. -/
def extract_story_body (data : JVal) : Except PyErr Story := do
  let pk0 ← dictGet data "pk" (.str "")
  let id0 ← dictGet data "id" (.str "")
  let code0 ← dictGet data "code" (.str "")
  let ta0 ← dictGet data "taken_at" (.num 0)
  let mt0 ← dictGet data "media_type" (.num 1)
  let u0 ← dictGet data "user" (.obj [])
  let upk ← dictGet u0 "pk" (.str "")
  let un ← dictGet u0 "username" (.str "")
  let ufn ← dictGet u0 "full_name" (.str "")
  let upp ← dictGet u0 "profile_pic_url" (.str "")
  let vd0 ← dictGet data "video_duration" (.num 0)
  let thumb ← thumb_part data
  let vid ← video_part data
  pure
    { pk := pyStr pk0
      id := id0
      code := code0
      taken_at := ta0
      media_type := mt0
      user_pk := pyStr upk
      username := un
      full_name := ufn
      profile_pic_url := upp
      thumbnail_url := thumb
      video_url := vid
      video_duration := vd0 }

/-- `InstagramClient._extract_story`: the `try` body above with its
`except Exception` handler returning None. -/
def extract_story (data : JVal) : Option Story :=
  match extract_story_body data with
  | .ok s => some s
  | .error _ => none

/-- Lift a plain Python exception into the application error class. -/
def liftPy : Except PyErr α → Except Err α
  | .ok a => .ok a
  | .error e => .error (.py e)

/-- The per-item loop shared by both fetchers:
`for item in items: story = _extract_story(item); if story: append`.
The story dict always carries twelve keys, so its Python truthiness is
exactly non-None, i.e. `extract_story` returning `some`. -/
def story_append_loop : List JVal → List Story → List Story
  | [], acc => acc
  | item :: rest, acc =>
    match extract_story item with
    | some s => story_append_loop rest (acc ++ [s])
    | none => story_append_loop rest acc

/-- `InstagramClient.get_user_stories` (src/app.py lines 418-434) applied
to the JSON body `resp` that `_request` returned for the story feed
endpoint. -/
def get_user_stories (resp : JVal) : Except Err (List Story) := do
  let reelRaw ← liftPy (dictGet resp "reel" .null)
  let reel := if pyTruthy reelRaw then reelRaw else .obj []
  let items ← liftPy (dictGet reel "items" (.arr []))
  let elems ← liftPy (pyIter items)
  pure (story_append_loop elems [])

/-- The highlight-info dict built by `get_highlight_stories`; the owner
`pk` passes through `str(...)`. -/
structure HighlightInfo where
  id : String
  title : JVal
  cover_url : JVal
  user_pk : String
  username : JVal
  full_name : JVal
  profile_pic_url : JVal

/-- The reels-map key `f"highlight:\x7bhighlight_id\x7d"`. -/
def hlKey (highlight_id : String) : String := "highlight:" ++ highlight_id

/-- `InstagramClient.get_highlight_stories` (src/app.py lines 436-472)
applied to the JSON body `resp` that `_request` returned for the
reels-media endpoint. -/
def get_highlight_stories (resp : JVal) (highlight_id : String) :
    Except Err (HighlightInfo × List Story) := do
  let reels ← liftPy (dictGet resp "reels" (.obj []))
  let mem ← liftPy (pyIn (.str (hlKey highlight_id)) reels)
  if mem then do
    let reel ← liftPy (pyIndex reels (hlKey highlight_id))
    let items ← liftPy (dictGet reel "items" (.arr []))
    let title ← liftPy (dictGet reel "title" (.str "Highlight"))
    let cm ← liftPy (dictGet reel "cover_media" (.obj []))
    let civ ← liftPy (dictGet cm "cropped_image_version" (.obj []))
    let cover ← liftPy (dictGet civ "url" (.str ""))
    let u ← liftPy (dictGet reel "user" (.obj []))
    let upk ← liftPy (dictGet u "pk" (.str ""))
    let un ← liftPy (dictGet u "username" (.str ""))
    let ufn ← liftPy (dictGet u "full_name" (.str ""))
    let upp ← liftPy (dictGet u "profile_pic_url" (.str ""))
    let elems ← liftPy (pyIter items)
    pure
      ({ id := highlight_id
         title := title
         cover_url := cover
         user_pk := pyStr upk
         username := un
         full_name := ufn
         profile_pic_url := upp },
       story_append_loop elems [])
  else
    .error (.ig { message := "Highlight not found", status_code := 404 })

/-! ### Identity resolver (`InstagramClient.get_user_id`)

The four helper strategies `_get_user_id_from_page`, `_get_user_id_graphql`,
`_get_user_id_web_profile` and `_get_user_id_search` are each wrapped in
`try: user_id = strategy(); if user_id: return user_id / except Exception:
log and continue`, so only their observable outcome matters to the chain:
a returned value (None or a string) or a raised exception.  The fifth
strategy inlines `_request` plus response inspection and catches only
`InstagramError`, so its environment is the `_request` outcome (which is
always a JSON body or an `InstagramError`). -/

/-- Observable outcome of one of the first four lookup strategies. -/
inductive Strat14Outcome where
  | ret (v : Option String)
  | exn
deriving DecidableEq

/-- The value the `try` wrapper around one of the first four strategies
returns, if any: a raised exception and a falsy result (None or the
empty string, per `if user_id:`) both fall through to the next
strategy. -/
def wrap14 : Strat14Outcome → Option String
  | .ret (some s) => if s = "" then none else some s
  | .ret none => none
  | .exn => none

/-- Upstream environment of one `get_user_id` call: what each strategy
would produce for the (single) invocation the chain may give it, in
chain order. -/
structure ResolveEnv where
  page : Strat14Outcome
  graphql : Strat14Outcome
  webProfile : Strat14Outcome
  search : Strat14Outcome
  mobile : Except IGErr JVal

/-- Strategy identifiers, in chain order. -/
inductive StratId where
  | page
  | graphql
  | webProfile
  | search
  | mobile
deriving DecidableEq

/-- Username normalization at the top of `get_user_id`:
`username.lower().strip().lstrip("@")`.  Lowercasing is modelled for
ASCII; `strip` models Python str whitespace. -/
def isPySpace (c : Char) : Bool :=
  (0x09 ≤ c.val && c.val ≤ 0x0d) || (0x1c ≤ c.val && c.val ≤ 0x1f) ||
  c.val == 0x20 || c.val == 0x85 || c.val == 0xa0 || c.val == 0x1680 ||
  (0x2000 ≤ c.val && c.val ≤ 0x200a) || c.val == 0x2028 ||
  c.val == 0x2029 || c.val == 0x202f || c.val == 0x205f || c.val == 0x3000

/-- Python `s.strip()` on a character list. -/
def pyStripWs (l : List Char) : List Char :=
  ((l.dropWhile isPySpace).reverse.dropWhile isPySpace).reverse

/-- ASCII lowercasing of a character list (Python `s.lower()`). -/
def lowerL (l : List Char) : List Char := l.map Char.toLower

/-- The composed normalization `username.lower().strip().lstrip("@")`;
`lstrip` removes every leading `@`, not just one. -/
def normalize_username (u : List Char) : List Char :=
  (pyStripWs (lowerL u)).dropWhile (fun c => c == '@')

/-- The message of the final `InstagramError` of `get_user_id`. -/
def notFoundMsg (u : List Char) : String :=
  "User " ++ sq ++ String.mk u ++ sq ++
    " not found. Please check the username."

/-- Body of strategy five (src/app.py lines 262-268 before its `except
InstagramError`): `result = _request(...)`, then
`if result.get("user"): return str(result["user"]["pk"])`.  `ok none`
means the body fell through without returning. -/
def mobileStep (resp : Except IGErr JVal) : Except Err (Option String) :=
  match resp with
  | .error e => .error (.ig e)
  | .ok result =>
    match dictGet result "user" .null with
    | .error p => .error (.py p)
    | .ok uv =>
      if pyTruthy uv then
        match pyIndex result "user" with
        | .error p => .error (.py p)
        | .ok uv2 =>
          match pyIndex uv2 "pk" with
          | .error p => .error (.py p)
          | .ok pv => .ok (some (pyStr pv))
      else .ok none

/-- `InstagramClient.get_user_id` (src/app.py lines 221-270),
instrumented with the list of strategies actually invoked.  Strategies
one to four swallow every exception; strategy five catches only
`InstagramError`, and chain exhaustion raises
`InstagramError(f"User not found", 404)` with the normalized
username interpolated. -/
def get_user_id_trace (env : ResolveEnv) (username : List Char) :
    List StratId × Except Err String :=
  let u := normalize_username username
  match wrap14 env.page with
  | some s => ([.page], .ok s)
  | none =>
  match wrap14 env.graphql with
  | some s => ([.page, .graphql], .ok s)
  | none =>
  match wrap14 env.webProfile with
  | some s => ([.page, .graphql, .webProfile], .ok s)
  | none =>
  match wrap14 env.search with
  | some s => ([.page, .graphql, .webProfile, .search], .ok s)
  | none =>
    let all5 : List StratId :=
      [.page, .graphql, .webProfile, .search, .mobile]
    match mobileStep env.mobile with
    | .ok (some s) => (all5, .ok s)
    | .ok none =>
      (all5, .error (.ig { message := notFoundMsg u, status_code := 404 }))
    | .error (.ig _) =>
      (all5, .error (.ig { message := notFoundMsg u, status_code := 404 }))
    | .error (.py p) => (all5, .error (.py p))

/-- Result of `get_user_id`. -/
def get_user_id (env : ResolveEnv) (username : List Char) :
    Except Err String :=
  (get_user_id_trace env username).2

/-- The strategies `get_user_id` invoked. -/
def invokedStrats (env : ResolveEnv) (username : List Char) :
    List StratId :=
  (get_user_id_trace env username).1

/-! ### URL parsing (`urllib.parse.urlsplit` / `urlparse` subset)

The subset of CPython `urlsplit` exercised by the repository: leading
control-or-space stripping, removal of tab, carriage return and newline,
scheme recognition, authority extraction after `//`, the unmatched-bracket
`ValueError("Invalid IPv6 URL")`, the NFKC netloc validation
`_checknetloc` (present in every supported CPython since the
CVE-2019-9636 fix), and fragment, query and params splitting, with the
params split applied only for `uses_params` schemes as `urlparse` does
(scheme list as of CPython 3.10+, which added rtsps).  The NFKC check is
modelled exactly: the check raises for a non-ASCII netloc if and only if
some character normalizes to a string containing one of the five
delimiters, because NFKC compatibility decompositions are per character
and canonical composition never produces an ASCII delimiter, so the
finite table of delimiter-expanding code points below decides it.  The
bracketed-host validation added in Python 3.11 is not modelled; the
theorems below therefore restrict URL-parsing statements to netlocs
containing no square bracket at all, where every supported CPython
version behaves alike. -/

/-- Characters `urlsplit` strips from the front of a URL. -/
def isC0OrSpace (c : Char) : Bool := c.val ≤ 0x20

/-- Characters `urlsplit` removes everywhere in a URL. -/
def isTabCrLf (c : Char) : Bool := c == '\t' || c == '\r' || c == '\n'

/-- Characters allowed in a URL scheme. -/
def schemeChar (c : Char) : Bool :=
  c.isAlpha || c.isDigit || c == '+' || c == '-' || c == '.'

/-- Split at the first occurrence of `sep`, dropping the separator;
`none` when `sep` does not occur. -/
def splitFirst (sep : Char) : List Char → Option (List Char × List Char)
  | [] => none
  | c :: t =>
    if c = sep then some ([], t)
    else
      match splitFirst sep t with
      | some (a, b) => some (c :: a, b)
      | none => none

/-- Result of `urlsplit`. -/
structure UrlSplitResult where
  scheme : List Char
  netloc : List Char
  path : List Char
  query : List Char
  fragment : List Char
deriving DecidableEq

/-- Initial URL sanitization of `urlsplit`. -/
def sanitizeUrl (url0 : List Char) : List Char :=
  (url0.dropWhile isC0OrSpace).filter (fun c => !isTabCrLf c)

/-- Scheme recognition of `urlsplit`: a colon at a positive index with a
leading ASCII letter and only scheme characters before it. -/
def schemeSplit (url1 : List Char) : List Char × List Char :=
  match splitFirst ':' url1 with
  | some (pre, post) =>
    if !pre.isEmpty &&
        (match pre.head? with
         | some c => c.isAlpha
         | none => false) &&
        pre.all schemeChar then
      (lowerL pre, post)
    else ([], url1)
  | none => ([], url1)

/-- Authority extraction of `urlsplit`: after a leading `//`, the netloc
runs to the first of `/`, `?` or `#`. -/
def netlocChunk (url2 : List Char) : List Char × List Char :=
  if url2.take 2 = ['/', '/'] then
    let rest := url2.drop 2
    (rest.takeWhile (fun c => !(c == '/' || c == '?' || c == '#')),
     rest.dropWhile (fun c => !(c == '/' || c == '?' || c == '#')))
  else ([], url2)

/-- The unmatched-square-bracket condition on which `urlsplit` raises
`ValueError("Invalid IPv6 URL")`. -/
def bracketMismatch (nl : List Char) : Bool :=
  (nl.contains '[' && !nl.contains ']') ||
  (nl.contains ']' && !nl.contains '[')

/-- Fragment and query splitting of `urlsplit` (fragments first). -/
def fragQuerySplit (url3 : List Char) : List Char × List Char × List Char :=
  let (url4, fragment) :=
    match splitFirst '#' url3 with
    | some (a, b) => (a, b)
    | none => (url3, [])
  let (path0, query) :=
    match splitFirst '?' url4 with
    | some (a, b) => (a, b)
    | none => (url4, [])
  (path0, query, fragment)

/-- The `urlsplit` pipeline without its bracket validation; also the
reference notion of "the URL path" used to state claim C6. -/
def urlsplitNB (url0 : List Char) : UrlSplitResult :=
  let url1 := sanitizeUrl url0
  let (scheme, url2) := schemeSplit url1
  let (netloc, url3) := netlocChunk url2
  let (path0, query, fragment) := fragQuerySplit url3
  { scheme := scheme, netloc := netloc, path := path0,
    query := query, fragment := fragment }

/-- Code points whose NFKC normalization contains one of the
delimiters `/`, `?`, `#`, `@`, `:` that `_checknetloc` scans for,
computed from the Unicode NFKC tables (the five ASCII delimiters
themselves are members but are removed or impossible in a netloc). -/
def nfkcDelimExpanding : List Nat :=
  [0x23, 0x2f, 0x3a, 0x3f, 0x40, 0x2047, 0x2048, 0x2049, 0x2100, 0x2101,
   0x2105, 0x2106, 0x2a74, 0xfe13, 0xfe16, 0xfe55, 0xfe56, 0xfe5f,
   0xfe6b, 0xff03, 0xff0f, 0xff1a, 0xff1f, 0xff20]

/-- The raise condition of CPython `_checknetloc`: an empty or all-ASCII
netloc passes; otherwise the literal `@`, `:`, `#`, `?` characters are
removed and the check raises exactly when the NFKC normalization of the
rest contains a delimiter, i.e. when some remaining character is in the
delimiter-expanding table. -/
def checknetlocRaises (netloc : List Char) : Bool :=
  if netloc.isEmpty || netloc.all (fun c => c.val ≤ 0x7f) then false
  else
    ((netloc.filter (fun c =>
        !(c == '@' || c == ':' || c == '#' || c == '?'))).any
      (fun c => nfkcDelimExpanding.contains c.val.toNat))

/-- The message of the `_checknetloc` ValueError. -/
def nfkcErrMsg (netloc : List Char) : String :=
  "netloc " ++ sq ++ String.mk netloc ++ sq ++
    " contains invalid characters under NFKC normalization"

/-- CPython `urlsplit` on the modelled subset: the sanitized pipeline
plus the unmatched-bracket `ValueError` and the NFKC netloc check. -/
def urlsplitM (url0 : List Char) : Except PyErr UrlSplitResult :=
  let url1 := sanitizeUrl url0
  let (scheme, url2) := schemeSplit url1
  let (netloc, url3) := netlocChunk url2
  if bracketMismatch netloc then .error (.valueError "Invalid IPv6 URL")
  else if checknetlocRaises netloc then
    .error (.valueError (nfkcErrMsg netloc))
  else
    let (path0, query, fragment) := fragQuerySplit url3
    .ok { scheme := scheme, netloc := netloc, path := path0,
          query := query, fragment := fragment }

/-- The params split `urlparse` applies to the path of `urlsplit`:
everything from a `;` in the last path segment on is dropped. -/
def splitParams (p : List Char) : List Char :=
  if p.contains '/' then
    let lastSeg := (p.reverse.takeWhile (fun c => c ≠ '/')).reverse
    let front := p.take (p.length - lastSeg.length)
    match splitFirst ';' lastSeg with
    | some (a, _) => front ++ a
    | none => p
  else
    match splitFirst ';' p with
    | some (a, _) => a
    | none => p

/-- The schemes for which `urlparse` splits params off the path
(CPython `uses_params`, as of 3.10+). -/
def uses_params : List (List Char) :=
  ["".data, "ftp".data, "hdl".data, "prospero".data, "http".data,
   "imap".data, "https".data, "shttp".data, "rtsp".data, "rtsps".data,
   "rtspu".data, "sip".data, "sips".data, "mms".data, "sftp".data,
   "tel".data]

/-- CPython `urlparse` on the modelled subset: `urlsplit`, then the
params split when the scheme is in `uses_params` and the path has a
semicolon. -/
def urlparseM (url : List Char) : Except PyErr UrlSplitResult :=
  match urlsplitM url with
  | .error e => .error e
  | .ok r =>
    if uses_params.contains r.scheme && r.path.contains ';' then
      .ok { r with path := splitParams r.path }
    else .ok r

/-! ### Input classifier (`parse_instagram_input`) -/

/-- The tagged reference returned by `parse_instagram_input`:
`("username", v)` or `("highlight", v)`. -/
inductive InputRef where
  | username (u : List Char)
  | highlight (h : List Char)
deriving DecidableEq

/-- The segment following the first occurrence of `tok`, mirroring
`parts[parts.index(tok) + 1]` guarded by a length check. -/
def segAfterFirst (tok : List Char) : List (List Char) → Option (List Char)
  | [] => none
  | p :: rest => if p = tok then rest.head? else segAfterFirst tok rest

/-- The service-domain literal tested by `parse_instagram_input`. -/
def igDomain : List Char := "instagram.com".data

/-- The non-empty path segments of a parsed URL path. -/
def nonEmptySegs (path : List Char) : List (List Char) :=
  (List.splitOn '/' path).filter (fun p => !p.isEmpty)

/-- Branching of `parse_instagram_input` on the non-empty path
segments. -/
def classifySegs (path_parts : List (List Char)) : Except PyErr InputRef :=
  if path_parts.contains "highlights".data then
    match segAfterFirst "highlights".data path_parts with
    | some v => .ok (.highlight v)
    | none => .error (.valueError "Invalid highlight URL")
  else if path_parts.contains "stories".data then
    match segAfterFirst "stories".data path_parts with
    | some v => .ok (.username v)
    | none => .error (.valueError "Invalid stories URL")
  else
    match path_parts with
    | p :: _ => .ok (.username p)
    | [] => .error (.valueError "Could not parse Instagram URL")

/-- `parse_instagram_input` (src/app.py lines 541-574): strip, test for
the service domain, URL-parse and branch on path segments, else treat
the input as a raw handle (`lstrip("@").lower()`). -/
def parse_instagram_input (raw : List Char) : Except PyErr InputRef :=
  let user_input := pyStripWs raw
  if subIn igDomain user_input then
    match urlparseM user_input with
    | .error e => .error e
    | .ok parsed => classifySegs (nonEmptySegs parsed.path)
  else
    .ok (.username (lowerL (user_input.dropWhile (fun c => c == '@'))))

/-- Modelled from the spec (claim C6): the path the claim attributes to
a domain-containing input, computed by URL splitting without the
validation raises, with the params split of `urlparse` (applied for
`uses_params` schemes only, as the program does). -/
def specPath (raw : List Char) : List Char :=
  let r := urlsplitNB (pyStripWs raw)
  if uses_params.contains r.scheme && r.path.contains ';' then
    splitParams r.path
  else r.path

/-- The non-empty segments of the claim-side path. -/
def specSegs (raw : List Char) : List (List Char) :=
  nonEmptySegs (specPath raw)

/-- Modelled from the spec (claim C6): for a domain-containing input,
split "the URL path" into non-empty segments and branch exactly as the
claim describes. -/
def classifySpecFull (raw : List Char) : Except PyErr InputRef :=
  classifySegs (specSegs raw)

/-! ### Download proxy gate (`is_allowed_download_url`, `download_media`) -/

/-- The allowed-domain list from src/config.py. -/
def ALLOWED_DOWNLOAD_DOMAINS : List (List Char) :=
  ["instagram.com".data, "cdninstagram.com".data, "fbcdn.net".data,
   "instagram.fcdn.net".data]

/-- `is_allowed_download_url` (src/app.py lines 577-584): substring-match
every allowed domain against the lowercased netloc, with a bare `except`
returning False. -/
def is_allowed_download_url (url : List Char) : Bool :=
  match urlparseM url with
  | .ok parsed =>
    ALLOWED_DOWNLOAD_DOMAINS.any (fun d => subIn d (lowerL parsed.netloc))
  | .error _ => false

/-- The three-way decision prefix of the `download_media` handler
(src/app.py lines 693-702): missing-URL 400, validation-failure 400, or
proceed to fetch and stream. -/
inductive DownloadDecision where
  | missingUrl
  | invalidUrl
  | fetchUrl
deriving DecidableEq

/-- The guard logic of `download_media` before any network call. -/
def download_media_gate (url : List Char) : DownloadDecision :=
  if url.isEmpty then .missingUrl
  else if !is_allowed_download_url url then .invalidUrl
  else .fetchUrl

/-- Modelled from urllib (`SplitResult.hostname`), used to state claim
C9: the part of the netloc after the last `@`, cut at a port or taken
from inside brackets, lowercased. -/
def pyHostname (url : List Char) : List Char :=
  match urlparseM url with
  | .error _ => []
  | .ok parsed =>
    let hostinfo := (parsed.netloc.reverse.takeWhile (fun c => c ≠ '@')).reverse
    match splitFirst '[' hostinfo with
    | some (_, rest) => lowerL (rest.takeWhile (fun c => c ≠ ']'))
    | none => lowerL (hostinfo.takeWhile (fun c => c ≠ ':'))

/-! ### Statement infrastructure

Families of well-formed raw items used to quantify the extractor claims,
reference selectors restating the selection policy, and the concrete
inputs of the counterexamples. -/

/-- A dict field that is either present with a value or absent. -/
def optField (k : String) : Option JVal → List (String × JVal)
  | some v => [(k, v)]
  | none => []

/-- The value `best.get("url")` yields: the URL when the field is
present, None otherwise. -/
def jOfOptStr : Option String → JVal
  | some s => .str s
  | none => .null

/-- A media rendition candidate with optional integer dimensions and
optional URL. -/
structure RawCand where
  width : Option Int
  height : Option Int
  url : Option String

/-- The selection key `width * height` with the defaults of the source
(absent dimensions count as 0). -/
def RawCand.area (c : RawCand) : Int := c.width.getD 0 * c.height.getD 0

/-- The candidate dict a `RawCand` denotes. -/
def RawCand.toJ (c : RawCand) : JVal :=
  .obj (optField "width" (c.width.map JVal.num) ++
        optField "height" (c.height.map JVal.num) ++
        optField "url" (c.url.map JVal.str))

/-- Running maximum over candidates, replacing only on a strictly larger
area, as Python `max(key=...)` iterates. -/
def bestCand : RawCand → List RawCand → RawCand
  | best, [] => best
  | best, c :: cs => if best.area < c.area then bestCand c cs else bestCand best cs

/-- A well-formed raw story item: arbitrary scalar payloads, a dict
owner, an arbitrary (or absent) media type, and optional candidate
lists. -/
structure RawItem where
  pk : JVal
  id : JVal
  code : JVal
  taken_at : JVal
  user : List (String × JVal)
  media_type : Option JVal
  image_versions2 : Option (List RawCand)
  video_versions : Option (List RawCand)
  video_duration : JVal

/-- The item dict a `RawItem` denotes (key order is irrelevant to
lookup; optional fields sit at the end). -/
def RawItem.toJ (r : RawItem) : JVal :=
  .obj ([("pk", r.pk), ("id", r.id), ("code", r.code),
         ("taken_at", r.taken_at), ("user", .obj r.user),
         ("video_duration", r.video_duration)] ++
        optField "media_type" r.media_type ++
        optField "image_versions2"
          (r.image_versions2.map (fun l =>
            .obj [("candidates", .arr (l.map RawCand.toJ))])) ++
        optField "video_versions"
          (r.video_versions.map (fun l => .arr (l.map RawCand.toJ))))

/-- Association lookup with a default. -/
def lookupD (kvs : List (String × JVal)) (k : String) (d : JVal) : JVal :=
  (assocLookup k kvs).getD d

/-- The thumbnail URL selected for a `RawItem`. -/
def thumbOf (r : RawItem) : JVal :=
  match r.image_versions2 with
  | some (c :: cs) => jOfOptStr (bestCand c cs).url
  | _ => .null

/-- The video URL selected for a `RawItem`. -/
def vidOf (r : RawItem) : JVal :=
  if pyEq (r.media_type.getD .null) (.num 2) then
    match r.video_versions with
    | some (c :: cs) => jOfOptStr (bestCand c cs).url
    | _ => .null
  else .null

/-- The story record `_extract_story` produces on a `RawItem`. -/
def storyOf (r : RawItem) : Story :=
  { pk := pyStr r.pk
    id := r.id
    code := r.code
    taken_at := r.taken_at
    media_type := r.media_type.getD (.num 1)
    user_pk := pyStr (lookupD r.user "pk" (.str ""))
    username := lookupD r.user "username" (.str "")
    full_name := lookupD r.user "full_name" (.str "")
    profile_pic_url := lookupD r.user "profile_pic_url" (.str "")
    thumbnail_url := thumbOf r
    video_url := vidOf r
    video_duration := r.video_duration }

/-- The no-active-story shapes of claim C7: the response object has no
reel, a falsy reel, or a reel object without items (absent key or empty
list). -/
def noActiveStory (resp : JVal) : Bool :=
  match resp with
  | .obj kvs =>
    match assocLookup "reel" kvs with
    | none => true
    | some r =>
      if pyTruthy r then
        match r with
        | .obj rk =>
          match assocLookup "items" rk with
          | none => true
          | some (.arr []) => true
          | some _ => false
        | _ => false
      else true
  | _ => false

/-- A key that, when present in a dict, holds a dict value. -/
def objOrAbsent (k : String) (kvs : List (String × JVal)) : Prop :=
  assocLookup k kvs = none ∨ ∃ m, assocLookup k kvs = some (.obj m)

/-- Resolver environment in which the first four strategies find no
match and the mobile API answers 200 with a truthy user object lacking
the `pk` key. -/
def envPkless : ResolveEnv :=
  { page := .ret none
    graphql := .ret none
    webProfile := .ret none
    search := .ret none
    mobile := .ok (.obj [("user", .obj [("has_anonymous_profile_picture", .bool false)])]) }

/-- True exactly when a resolver outcome is the chain-exhaustion
`InstagramError(..., 404)`. -/
def isNotFound404 : Except Err String → Bool
  | .error (.ig e) => e.status_code == 404
  | _ => false

/-- The bracket-mismatched story URL of the C6 counterexample. -/
def bracketUrl : List Char := "https://[instagram.com/stories/a".data

/-- Whether the netloc computed for an input (after the classifier strip)
contains square brackets; URL-parsing theorems restrict to
bracket-free netlocs, where all modelled CPython versions agree. -/
def netlocBracketFree (raw : List Char) : Bool :=
  let nl := (urlsplitNB (pyStripWs raw)).netloc
  !nl.contains '[' && !nl.contains ']'

/-- The userinfo-bearing URL of the C9 counterexample: its netloc
contains an allowed domain, its host is evil.com. -/
def userinfoUrl : List Char := "https://cdninstagram.com@evil.com/x".data

/-- A 100 by 100 candidate with URL A. -/
def candA : RawCand := { width := some 100, height := some 100, url := some "A" }

/-- A 300 by 300 candidate with URL B. -/
def candB : RawCand := { width := some 300, height := some 300, url := some "B" }

/-- A 10 by 10 video candidate with URL V. -/
def candV : RawCand := { width := some 10, height := some 10, url := some "V" }

/-- A still-image item (media type 1) that nevertheless carries a
populated video-candidate list. -/
def itemImage : RawItem :=
  { pk := .num 7, id := .str "x", code := .null, taken_at := .num 5,
    user := [("pk", .num 55)], media_type := some (.num 1),
    image_versions2 := some [candA, candB],
    video_versions := some [candV], video_duration := .num 0 }

/-- The same item as a video (media type 2). -/
def itemVideo : RawItem := { itemImage with media_type := some (.num 2) }

/-! ## Theorems -/

/-- Claim C1: the resolver tries its five strategies strictly in the
order page-scrape, GraphQL search, profile-info, legacy search,
authenticated-session, and stops at the first strategy returning a
non-empty account ID; once strategy k succeeds, no later strategy is
invoked, and a no-match outcome (`wrap14 _ = none` covers both a falsy
return and a swallowed exception) lets the chain proceed. -/
theorem resolver_first_success_wins :
    (∀ (env : ResolveEnv) (u : List Char) (s : String),
        wrap14 env.page = some s →
        get_user_id_trace env u = ([.page], .ok s))
    ∧ (∀ (env : ResolveEnv) (u : List Char) (s : String),
        wrap14 env.page = none → wrap14 env.graphql = some s →
        get_user_id_trace env u = ([.page, .graphql], .ok s))
    ∧ (∀ (env : ResolveEnv) (u : List Char) (s : String),
        wrap14 env.page = none → wrap14 env.graphql = none →
        wrap14 env.webProfile = some s →
        get_user_id_trace env u = ([.page, .graphql, .webProfile], .ok s))
    ∧ (∀ (env : ResolveEnv) (u : List Char) (s : String),
        wrap14 env.page = none → wrap14 env.graphql = none →
        wrap14 env.webProfile = none → wrap14 env.search = some s →
        get_user_id_trace env u =
          ([.page, .graphql, .webProfile, .search], .ok s))
    ∧ (∀ (env : ResolveEnv) (u : List Char) (s : String),
        wrap14 env.page = none → wrap14 env.graphql = none →
        wrap14 env.webProfile = none → wrap14 env.search = none →
        mobileStep env.mobile = .ok (some s) → s ≠ "" →
        get_user_id_trace env u =
          ([.page, .graphql, .webProfile, .search, .mobile], .ok s)) := by
  refine ⟨?_, ?_, ?_, ?_, ?_⟩
  · intro env u s h1
    simp [get_user_id_trace, h1]
  · intro env u s h1 h2
    simp [get_user_id_trace, h1, h2]
  · intro env u s h1 h2 h3
    simp [get_user_id_trace, h1, h2, h3]
  · intro env u s h1 h2 h3 h4
    simp [get_user_id_trace, h1, h2, h3, h4]
  · intro env u s h1 h2 h3 h4 h5 _
    simp [get_user_id_trace, h1, h2, h3, h4, h5]

/-- Witness for C1: with the page strategy raising and the GraphQL
strategy finding an ID, the chain returns that ID having invoked exactly
the first two strategies. -/
theorem resolver_first_success_wins_witness :
    get_user_id_trace
      { page := .exn, graphql := .ret (some "123"), webProfile := .ret none,
        search := .ret none,
        mobile := .error { message := "x", status_code := 400 } }
      "Bob".data = ([.page, .graphql], .ok "123") :=
  resolver_first_success_wins.2.1 _ _ _ rfl rfl

/-- Counterexample to claim C2: with the first four strategies finding
no match and the mobile API answering 200 with a truthy user object that
lacks the `pk` key, all five strategies are attempted and none produces
an account ID, yet `get_user_id` surfaces a `KeyError`, not the
`NotFoundError`-class `InstagramError(..., 404)`. -/
theorem resolver_notfound_counterexample :
    get_user_id envPkless "bob".data = .error (.py (.keyError "pk"))
    ∧ isNotFound404 (get_user_id envPkless "bob".data) = false :=
  ⟨rfl, rfl⟩

/-- Claim C2 (amended): `get_user_id` fails with the 404
`InstagramError` carrying the normalized username exactly when the first
four strategies fail and strategy five either finds no user or raises an
`InstagramError`; exceptions of strategies one to four are always
swallowed, but a non-`InstagramError` exception raised while strategy
five inspects the mobile-API response propagates to the caller. -/
theorem resolver_notfound_iff_exhausted :
    (∀ (env : ResolveEnv) (u : List Char),
      get_user_id env u =
          .error (.ig { message := notFoundMsg (normalize_username u),
                        status_code := 404 }) ↔
        (wrap14 env.page = none ∧ wrap14 env.graphql = none ∧
         wrap14 env.webProfile = none ∧ wrap14 env.search = none ∧
         (mobileStep env.mobile = .ok none ∨
          ∃ e, mobileStep env.mobile = .error (.ig e))))
    ∧ (∀ (env : ResolveEnv) (u : List Char) (p : PyErr),
        wrap14 env.page = none → wrap14 env.graphql = none →
        wrap14 env.webProfile = none → wrap14 env.search = none →
        mobileStep env.mobile = .error (.py p) →
        get_user_id env u = .error (.py p)) := by
  constructor
  · intro env u
    constructor
    · intro h
      cases h1 : wrap14 env.page with
      | some s => simp [get_user_id, get_user_id_trace, h1] at h
      | none =>
      cases h2 : wrap14 env.graphql with
      | some s => simp [get_user_id, get_user_id_trace, h1, h2] at h
      | none =>
      cases h3 : wrap14 env.webProfile with
      | some s => simp [get_user_id, get_user_id_trace, h1, h2, h3] at h
      | none =>
      cases h4 : wrap14 env.search with
      | some s => simp [get_user_id, get_user_id_trace, h1, h2, h3, h4] at h
      | none =>
        refine ⟨rfl, rfl, rfl, rfl, ?_⟩
        cases h5 : mobileStep env.mobile with
        | ok v =>
          cases v with
          | some s =>
            simp [get_user_id, get_user_id_trace, h1, h2, h3, h4, h5] at h
          | none => exact Or.inl rfl
        | error e =>
          cases e with
          | ig e => exact Or.inr ⟨e, rfl⟩
          | py p =>
            simp [get_user_id, get_user_id_trace, h1, h2, h3, h4, h5] at h
    · rintro ⟨h1, h2, h3, h4, h5⟩
      rcases h5 with h5 | ⟨e, h5⟩ <;>
        simp [get_user_id, get_user_id_trace, h1, h2, h3, h4, h5]
  · intro env u p h1 h2 h3 h4 h5
    simp [get_user_id, get_user_id_trace, h1, h2, h3, h4, h5]

/-- Witness for the amended C2: a fully exhausted chain (four no-match
strategies, mobile API 404) surfaces exactly the 404 `InstagramError`
with the normalized username. -/
theorem resolver_notfound_iff_exhausted_witness :
    get_user_id
      { page := .ret none, graphql := .ret (some ""), webProfile := .exn,
        search := .ret none,
        mobile := .error { message := "Not found", status_code := 404 } }
      "@Bob ".data =
      .error (.ig { message := notFoundMsg "bob".data, status_code := 404 }) := by
  have h := (resolver_notfound_iff_exhausted.1
    { page := .ret none, graphql := .ret (some ""), webProfile := .exn,
      search := .ret none,
      mobile := .error { message := "Not found", status_code := 404 } }
    "@Bob ".data).mpr
    ⟨rfl, rfl, rfl, rfl, Or.inr ⟨_, rfl⟩⟩
  simpa using h

/-- Claim C5: `_extract_story` is total: a structural error anywhere in
its body is caught and turned into None, and the result is always either
None or a story record, never a propagated exception. -/
theorem extractor_total :
    (∀ (d : JVal) (e : PyErr),
        extract_story_body d = .error e → extract_story d = none)
    ∧ (∀ d : JVal, extract_story d = none ∨ ∃ s, extract_story d = some s) := by
  constructor
  · intro d e h
    simp [extract_story, h]
  · intro d
    cases h : extract_story_body d <;> simp [extract_story, h]

/-- Witness for C5: an item whose `user` field is a string makes the
body raise an AttributeError on `.get`, and extraction returns None. -/
theorem extractor_total_witness :
    extract_story_body (.obj [("pk", .num 1), ("user", .str "x")]) =
      .error (.attrError "get")
    ∧ extract_story (.obj [("pk", .num 1), ("user", .str "x")]) = none :=
  ⟨rfl, extractor_total.1 _ _ rfl⟩

/-- The append loop of both fetchers accumulates exactly the items whose
extraction is non-None, in order. -/
theorem story_append_loop_eq (items : List JVal) (acc : List Story) :
    story_append_loop items acc = acc ++ items.filterMap extract_story := by
  induction items generalizing acc with
  | nil => simp [story_append_loop]
  | cons i rest ih =>
    cases h : extract_story i <;> simp [story_append_loop, h, ih]

/-- A bind whose head is a lifted Python step can only fail with a
Python-class error, never with a given `InstagramError`, provided the
continuation cannot either. -/
theorem liftPy_bind_ne_ig {α β : Type} (x : Except PyErr α)
    (f : α → Except Err β) (e : IGErr)
    (hf : ∀ a, f a ≠ Except.error (Err.ig e)) :
    (liftPy x >>= f) ≠ Except.error (Err.ig e) := by
  cases x with
  | ok a => simpa [liftPy, Bind.bind, Except.bind] using hf a
  | error p => simp [liftPy, Bind.bind, Except.bind]

/-- On a dict, `get` never fails and returns the looked-up value or the
default. -/
theorem dictGet_obj (kvs : List (String × JVal)) (k : String) (d : JVal) :
    dictGet (.obj kvs) k d = .ok (lookupD kvs k d) := by
  cases h : assocLookup k kvs <;> simp [dictGet, lookupD, h]

/-- Claim C7: fetching the stories of an account with no active story
(no reel, falsy reel, or no items) yields the empty list and no error;
fetching a highlight fails with the 404 "Highlight not found"
`InstagramError` exactly when the key `highlight:<id>` is absent from
the reels map of the upstream response. -/
theorem fetcher_empty_list_and_highlight_404 :
    (∀ resp : JVal, noActiveStory resp = true → get_user_stories resp = .ok [])
    ∧ (∀ (kvs rk : List (String × JVal)) (hid : String),
        assocLookup "reels" kvs = some (.obj rk) →
        (get_highlight_stories (.obj kvs) hid =
            .error (.ig { message := "Highlight not found", status_code := 404 })
          ↔ assocLookup (hlKey hid) rk = none))
    ∧ (∀ (kvs : List (String × JVal)) (hid : String),
        assocLookup "reels" kvs = none →
        get_highlight_stories (.obj kvs) hid =
          .error (.ig { message := "Highlight not found", status_code := 404 })) := by
  refine ⟨?_, ?_, ?_⟩
  · intro resp h
    cases resp with
    | obj kvs =>
      cases hr : assocLookup "reel" kvs with
      | none =>
        simp [get_user_stories, dictGet, hr, pyTruthy, pyIter, liftPy,
          Bind.bind, Except.bind, assocLookup, story_append_loop, pure,
          Except.pure]
      | some r =>
        simp only [noActiveStory, hr] at h
        by_cases ht : pyTruthy r
        · simp only [ht, if_true] at h
          cases r with
          | obj rk =>
            cases hi : assocLookup "items" rk with
            | none =>
              simp [get_user_stories, dictGet, hr, ht, hi, pyIter, liftPy,
                Bind.bind, Except.bind, story_append_loop, pure, Except.pure]
            | some v =>
              simp only [hi] at h
              cases v with
              | arr l =>
                cases l with
                | nil =>
                  simp [get_user_stories, dictGet, hr, ht, hi, pyIter, liftPy,
                    Bind.bind, Except.bind, story_append_loop, pure,
                    Except.pure]
                | cons a tl => simp at h
              | null => simp at h
              | bool b => simp at h
              | num n => simp at h
              | str s => simp at h
              | obj o => simp at h
          | null => simp [pyTruthy] at ht
          | bool b => simp at h
          | num n => simp at h
          | str s => simp at h
          | arr xs => simp at h
        · simp only [ht, if_false] at h
          have ht2 : pyTruthy r = false := by
            cases hb : pyTruthy r
            · rfl
            · exact absurd hb ht
          simp [get_user_stories, dictGet, hr, ht2, pyIter, liftPy,
            Bind.bind, Except.bind, assocLookup, story_append_loop, pure,
            Except.pure]
    | null => simp [noActiveStory] at h
    | bool b => simp [noActiveStory] at h
    | num n => simp [noActiveStory] at h
    | str s => simp [noActiveStory] at h
    | arr xs => simp [noActiveStory] at h
  · intro kvs rk hid hreels
    constructor
    · intro h
      by_contra hk
      obtain ⟨v, hv⟩ := Option.ne_none_iff_exists.mp hk
      have hne : get_highlight_stories (.obj kvs) hid ≠
          .error (.ig { message := "Highlight not found", status_code := 404 }) := by
        simp only [get_highlight_stories, dictGet, hreels, liftPy, pyIn,
          Bind.bind, Except.bind, ← hv, Option.isSome_some, if_true, pyIndex]
        refine liftPy_bind_ne_ig _ _ _ (fun a => ?_)
        refine liftPy_bind_ne_ig _ _ _ (fun a2 => ?_)
        refine liftPy_bind_ne_ig _ _ _ (fun a3 => ?_)
        refine liftPy_bind_ne_ig _ _ _ (fun a4 => ?_)
        refine liftPy_bind_ne_ig _ _ _ (fun a5 => ?_)
        refine liftPy_bind_ne_ig _ _ _ (fun a6 => ?_)
        refine liftPy_bind_ne_ig _ _ _ (fun a7 => ?_)
        refine liftPy_bind_ne_ig _ _ _ (fun a8 => ?_)
        refine liftPy_bind_ne_ig _ _ _ (fun a9 => ?_)
        refine liftPy_bind_ne_ig _ _ _ (fun a10 => ?_)
        refine liftPy_bind_ne_ig _ _ _ (fun a11 => ?_)
        simp [pure, Except.pure]
      exact hne h
    · intro h
      simp [get_highlight_stories, dictGet, hreels, liftPy, pyIn,
        Bind.bind, Except.bind, h]
  · intro kvs hid hreels
    simp [get_highlight_stories, dictGet, hreels, liftPy, pyIn,
      Bind.bind, Except.bind, assocLookup]

/-- Witness for C7: a response whose reel is None yields the empty
story list, and a reels map without the requested highlight key yields
the 404 error. -/
theorem fetcher_empty_list_and_highlight_404_witness :
    get_user_stories (.obj [("reel", .null)]) = .ok []
    ∧ get_highlight_stories
        (.obj [("reels", .obj [("highlight:1", .obj [])])]) "99" =
        .error (.ig { message := "Highlight not found", status_code := 404 }) :=
  ⟨fetcher_empty_list_and_highlight_404.1 _ rfl,
   (fetcher_empty_list_and_highlight_404.2.1
     [("reels", .obj [("highlight:1", .obj [])])]
     [("highlight:1", .obj [])] "99" rfl).mpr rfl⟩

/-- Claim C8: both fetchers return exactly the upstream items whose
extraction is non-None, in upstream order: an item extracting to None is
dropped and the rest of the batch is still returned. -/
theorem fetchers_route_through_extractor :
    (∀ (kvs rk : List (String × JVal)) (r : JVal) (l : List JVal),
        assocLookup "reel" kvs = some r → pyTruthy r = true →
        r = .obj rk → assocLookup "items" rk = some (.arr l) →
        get_user_stories (.obj kvs) = .ok (l.filterMap extract_story))
    ∧ (∀ (kvs rk rl : List (String × JVal)) (l : List JVal) (hid : String),
        assocLookup "reels" kvs = some (.obj rk) →
        assocLookup (hlKey hid) rk = some (.obj rl) →
        assocLookup "items" rl = some (.arr l) →
        objOrAbsent "cover_media" rl →
        (∀ ck, assocLookup "cover_media" rl = some (.obj ck) →
            objOrAbsent "cropped_image_version" ck) →
        objOrAbsent "user" rl →
        Except.map Prod.snd (get_highlight_stories (.obj kvs) hid) =
          .ok (l.filterMap extract_story)) := by
  constructor
  · intro kvs rk r l h1 h2 h3 h4
    subst h3
    simp [get_user_stories, dictGet, h1, h2, h4, pyIter, liftPy,
      Bind.bind, Except.bind, pure, Except.pure, story_append_loop_eq]
  · intro kvs rk rl l hid h1 h2 h3 hcm hciv hu
    rcases hu with hu | ⟨um, hu⟩ <;>
    rcases hcm with hcm | ⟨ck, hcm⟩
    · simp [get_highlight_stories, h1, h2, h3, hcm, hu, pyIn,
        pyIndex, pyIter, liftPy, Bind.bind, Except.bind, pure, Except.pure,
        story_append_loop_eq, Except.map, assocLookup, dictGet_obj, lookupD,
        Option.getD]
    · rcases hciv ck hcm with hciv2 | ⟨m2, hciv2⟩ <;>
        simp [get_highlight_stories, h1, h2, h3, hcm, hciv2, hu,
          pyIn, pyIndex, pyIter, liftPy, Bind.bind, Except.bind, pure,
          Except.pure, story_append_loop_eq, Except.map, assocLookup,
          dictGet_obj, lookupD, Option.getD]
    · simp [get_highlight_stories, h1, h2, h3, hcm, hu, pyIn,
        pyIndex, pyIter, liftPy, Bind.bind, Except.bind, pure, Except.pure,
        story_append_loop_eq, Except.map, assocLookup, dictGet_obj, lookupD,
        Option.getD]
    · rcases hciv ck hcm with hciv2 | ⟨m2, hciv2⟩ <;>
        simp [get_highlight_stories, h1, h2, h3, hcm, hciv2, hu,
          pyIn, pyIndex, pyIter, liftPy, Bind.bind, Except.bind, pure,
          Except.pure, story_append_loop_eq, Except.map, assocLookup,
          dictGet_obj, lookupD, Option.getD]

/-- Witness for C8: a reel with three items, the middle one malformed,
yields a batch with exactly the two well-formed stories, in order. -/
theorem fetchers_route_through_extractor_witness :
    get_user_stories
        (.obj [("reel", .obj [("items", .arr [.obj [], .num 3, .obj []])])]) =
      .ok ([.obj [], .num 3, .obj []].filterMap extract_story)
    ∧ ([JVal.obj [], JVal.num 3, JVal.obj []].filterMap extract_story).length = 2
    ∧ extract_story (.num 3) = none :=
  ⟨fetchers_route_through_extractor.1
    [("reel", .obj [("items", .arr [.obj [], .num 3, .obj []])])]
    [("items", .arr [.obj [], .num 3, .obj []])] _ _ rfl rfl rfl rfl,
   rfl, rfl⟩

/-- The selection key evaluates on a candidate dict to its area. -/
theorem area_key_toJ (c : RawCand) : area_key c.toJ = .ok (.num c.area) := by
  rcases c with ⟨w, h, u⟩
  cases w <;> cases h <;> cases u <;>
    simp +decide [area_key, RawCand.toJ, RawCand.area, dictGet, optField,
      assocLookup, pyMul, toNum, Bind.bind, Except.bind, Option.map,
      Option.getD]

/-- Comparison of two numeric keys. -/
theorem pyGt_num (a b : Int) : pyGt (.num a) (.num b) = .ok (decide (b < a)) :=
  rfl

/-- The `max` iteration over encoded candidates computes `bestCand`. -/
theorem pyMaxGo_toJ (cs : List RawCand) : ∀ b : RawCand,
    pyMaxGo area_key b.toJ (.num b.area) (cs.map RawCand.toJ) =
      .ok ((bestCand b cs).toJ) := by
  induction cs with
  | nil => intro b; simp [pyMaxGo, bestCand]
  | cons c tl ih =>
    intro b
    by_cases hlt : b.area < c.area <;>
      simp [pyMaxGo, bestCand, area_key_toJ, pyGt_num, hlt,
        Bind.bind, Except.bind, ih]

/-- Python `max(candidates, key=area)` over encoded candidates selects
the running maximum, first maximal element winning ties. -/
theorem pyMaxKey_toJ (c : RawCand) (cs : List RawCand) :
    pyMaxKey area_key (.arr (c.toJ :: cs.map RawCand.toJ)) =
      .ok ((bestCand c cs).toJ) := by
  simp [pyMaxKey, pyIter, Bind.bind, Except.bind, area_key_toJ, pyMaxGo_toJ]

/-- The `best.get("url")` step on an encoded candidate. -/
theorem url_get_toJ (c : RawCand) :
    dictGet c.toJ "url" .null = .ok (jOfOptStr c.url) := by
  rcases c with ⟨w, h, u⟩
  cases w <;> cases h <;> cases u <;>
    simp +decide [RawCand.toJ, dictGet, optField, assocLookup, jOfOptStr,
      Option.map]

/-- The plain scalar fields of an encoded item look up to their
payloads. -/
theorem toJ_get_plain (r : RawItem) :
    dictGet r.toJ "pk" (.str "") = .ok r.pk
    ∧ dictGet r.toJ "id" (.str "") = .ok r.id
    ∧ dictGet r.toJ "code" (.str "") = .ok r.code
    ∧ dictGet r.toJ "taken_at" (.num 0) = .ok r.taken_at
    ∧ dictGet r.toJ "user" (.obj []) = .ok (.obj r.user)
    ∧ dictGet r.toJ "video_duration" (.num 0) = .ok r.video_duration := by
  refine ⟨?_, ?_, ?_, ?_, ?_, ?_⟩ <;>
    simp +decide [RawItem.toJ, dictGet, assocLookup]

/-- The media-type field of an encoded item looks up to its payload or
the given default. -/
theorem toJ_get_media_type (r : RawItem) (d : JVal) :
    dictGet r.toJ "media_type" d = .ok (r.media_type.getD d) := by
  rcases r with ⟨pk, id, code, ta, user, mt, iv, vv, vd⟩
  cases mt <;> cases iv <;> cases vv <;>
    simp +decide [RawItem.toJ, dictGet, assocLookup, optField, Option.map]

/-- Presence of the image-versions key on an encoded item. -/
theorem toJ_has_iv (r : RawItem) :
    pyIn (.str "image_versions2") r.toJ = .ok r.image_versions2.isSome := by
  rcases r with ⟨pk, id, code, ta, user, mt, iv, vv, vd⟩
  cases mt <;> cases iv <;> cases vv <;>
    simp +decide [RawItem.toJ, pyIn, assocLookup, optField, Option.map]

/-- Indexing the image-versions key on an encoded item that has it. -/
theorem toJ_index_iv (r : RawItem) (l : List RawCand)
    (h : r.image_versions2 = some l) :
    pyIndex r.toJ "image_versions2" =
      .ok (.obj [("candidates", .arr (l.map RawCand.toJ))]) := by
  rcases r with ⟨pk, id, code, ta, user, mt, iv, vv, vd⟩
  cases mt <;>
    simp_all +decide [RawItem.toJ, pyIndex, assocLookup, optField, Option.map]

/-- Presence of the video-versions key on an encoded item. -/
theorem toJ_has_vv (r : RawItem) :
    pyIn (.str "video_versions") r.toJ = .ok r.video_versions.isSome := by
  rcases r with ⟨pk, id, code, ta, user, mt, iv, vv, vd⟩
  cases mt <;> cases iv <;> cases vv <;>
    simp +decide [RawItem.toJ, pyIn, assocLookup, optField, Option.map]

/-- Indexing the video-versions key on an encoded item that has it. -/
theorem toJ_index_vv (r : RawItem) (l : List RawCand)
    (h : r.video_versions = some l) :
    pyIndex r.toJ "video_versions" = .ok (.arr (l.map RawCand.toJ)) := by
  rcases r with ⟨pk, id, code, ta, user, mt, iv, vv, vd⟩
  cases mt <;> cases iv <;>
    simp_all +decide [RawItem.toJ, pyIndex, assocLookup, optField, Option.map]

/-- The thumbnail block evaluates on every encoded item to the max-area
candidate URL, or None without candidates. -/
theorem thumb_part_toJ (r : RawItem) : thumb_part r.toJ = .ok (thumbOf r) := by
  cases hiv : r.image_versions2 with
  | none =>
    simp [thumb_part, thumbOf, toJ_has_iv, hiv, Bind.bind, Except.bind,
      pure, Except.pure]
  | some l =>
    cases l with
    | nil =>
      simp +decide [thumb_part, thumbOf, toJ_has_iv, hiv,
        toJ_index_iv r _ hiv, dictGet_obj, lookupD, Option.getD, assocLookup,
        pyTruthy, Bind.bind, Except.bind, pure, Except.pure]
    | cons c cs =>
      simp +decide [thumb_part, thumbOf, toJ_has_iv, hiv,
        toJ_index_iv r _ hiv, dictGet_obj, lookupD, Option.getD, assocLookup,
        pyTruthy, pyMaxKey_toJ, url_get_toJ, Bind.bind, Except.bind,
        pure, Except.pure]

/-- The video block evaluates on every encoded item to the max-area
version URL, or None when the media type is not 2 or no version is
present. -/
theorem video_part_toJ (r : RawItem) : video_part r.toJ = .ok (vidOf r) := by
  cases h2 : pyEq (r.media_type.getD .null) (.num 2) with
  | false =>
    simp [video_part, vidOf, toJ_get_media_type, h2, Bind.bind, Except.bind,
      pure, Except.pure]
  | true =>
    cases hvv : r.video_versions with
    | none =>
      simp [video_part, vidOf, toJ_get_media_type, h2, toJ_has_vv, hvv,
        Bind.bind, Except.bind, pure, Except.pure]
    | some l =>
      cases l with
      | nil =>
        simp +decide [video_part, vidOf, toJ_get_media_type, h2, toJ_has_vv,
          hvv, toJ_index_vv r _ hvv, pyTruthy, Bind.bind, Except.bind,
          pure, Except.pure]
      | cons c cs =>
        simp +decide [video_part, vidOf, toJ_get_media_type, h2, toJ_has_vv,
          hvv, toJ_index_vv r _ hvv, pyTruthy, pyMaxKey_toJ, url_get_toJ,
          Bind.bind, Except.bind, pure, Except.pure]

/-- Evaluation of `_extract_story` on every well-formed raw item. -/
theorem extract_toJ (r : RawItem) : extract_story r.toJ = some (storyOf r) := by
  obtain ⟨g1, g2, g3, g4, g5, g6⟩ := toJ_get_plain r
  simp [extract_story, extract_story_body, storyOf, g1, g2, g3, g4, g5, g6,
    toJ_get_media_type, thumb_part_toJ, video_part_toJ, dictGet_obj,
    Bind.bind, Except.bind, pure, Except.pure]

/-- The running maximum is the first element of maximal area: it occurs
at an index before which every area is strictly smaller, and no element
has a larger area. -/
theorem bestCand_first_max (cs : List RawCand) : ∀ b : RawCand,
    ∃ i : ℕ, (b :: cs).get? i = some (bestCand b cs)
      ∧ (∀ d ∈ (b :: cs).take i, d.area < (bestCand b cs).area)
      ∧ (∀ d ∈ b :: cs, d.area ≤ (bestCand b cs).area) := by
  induction cs with
  | nil =>
    intro b
    refine ⟨0, by simp [bestCand], by simp, ?_⟩
    intro d hd
    simp at hd
    simp [hd, bestCand]
  | cons c tl ih =>
    intro b
    by_cases hlt : b.area < c.area
    · obtain ⟨i, h1, h2, h3⟩ := ih c
      refine ⟨i + 1, ?_, ?_, ?_⟩
      · simpa [bestCand, hlt] using h1
      · intro d hd
        rw [List.take_succ_cons] at hd
        rcases List.mem_cons.mp hd with hd | hd
        · have hcle := h3 c (List.mem_cons_self c tl)
          simp only [bestCand, if_pos hlt]
          exact hd ▸ lt_of_lt_of_le hlt hcle
        · simpa [bestCand, hlt] using h2 d hd
      · intro d hd
        rcases List.mem_cons.mp hd with hd | hd
        · have hcle := h3 c (List.mem_cons_self c tl)
          simp only [bestCand, if_pos hlt]
          exact hd ▸ le_of_lt (lt_of_lt_of_le hlt hcle)
        · simpa [bestCand, hlt] using h3 d hd
    · obtain ⟨i, h1, h2, h3⟩ := ih b
      have hble := le_of_not_lt hlt
      cases i with
      | zero =>
        refine ⟨0, ?_, ?_, ?_⟩
        · simpa [bestCand, hlt] using h1
        · simp
        · intro d hd
          have hbb := h3 b (List.mem_cons_self b tl)
          rcases List.mem_cons.mp hd with hd | hd
          · simp only [bestCand, if_neg hlt]
            exact hd ▸ hbb
          · rcases List.mem_cons.mp hd with hd | hd
            · simp only [bestCand, if_neg hlt]
              exact hd ▸ le_trans hble hbb
            · simpa [bestCand, hlt] using h3 d (List.mem_cons_of_mem b hd)
      | succ j =>
        refine ⟨j + 2, ?_, ?_, ?_⟩
        · simpa [bestCand, hlt] using h1
        · intro d hd
          have hblt : b.area < (bestCand b tl).area := by
            have := h2 b (by simp [List.take_succ_cons])
            simpa using this
          rw [List.take_succ_cons, List.take_succ_cons] at hd
          rcases List.mem_cons.mp hd with hd | hd
          · simp only [bestCand, if_neg hlt]
            exact hd ▸ hblt
          · rcases List.mem_cons.mp hd with hd | hd
            · simp only [bestCand, if_neg hlt]
              exact hd ▸ lt_of_le_of_lt hble hblt
            · have : d ∈ (b :: tl).take (j + 1) := by
                rw [List.take_succ_cons]
                exact List.mem_cons_of_mem b hd
              simpa [bestCand, hlt] using h2 d this
        · intro d hd
          have hbb := h3 b (List.mem_cons_self b tl)
          rcases List.mem_cons.mp hd with hd | hd
          · simp only [bestCand, if_neg hlt]
            exact hd ▸ hbb
          · rcases List.mem_cons.mp hd with hd | hd
            · simp only [bestCand, if_neg hlt]
              exact hd ▸ le_trans hble hbb
            · simpa [bestCand, hlt] using h3 d (List.mem_cons_of_mem b hd)

/-- Claim C3: whenever the image-candidate list is present and
non-empty, extraction succeeds and `thumbnail_url` is the URL of the
candidate maximizing width times height, first-encountered winning
ties, regardless of the media type (which is arbitrary in the item
family); with no image candidate, `thumbnail_url` stays None. -/
theorem extractor_thumbnail_max_area :
    (∀ (r : RawItem) (c : RawCand) (cs : List RawCand),
        r.image_versions2 = some (c :: cs) →
        extract_story r.toJ = some (storyOf r)
        ∧ (storyOf r).thumbnail_url = jOfOptStr (bestCand c cs).url)
    ∧ (∀ r : RawItem,
        r.image_versions2 = none ∨ r.image_versions2 = some [] →
        extract_story r.toJ = some (storyOf r)
        ∧ (storyOf r).thumbnail_url = .null)
    ∧ (∀ (c : RawCand) (cs : List RawCand),
        ∃ i : ℕ, (c :: cs).get? i = some (bestCand c cs)
          ∧ (∀ d ∈ (c :: cs).take i, d.area < (bestCand c cs).area)
          ∧ (∀ d ∈ c :: cs, d.area ≤ (bestCand c cs).area)) := by
  refine ⟨?_, ?_, ?_⟩
  · intro r c cs h
    exact ⟨extract_toJ r, by simp [storyOf, thumbOf, h]⟩
  · intro r h
    refine ⟨extract_toJ r, ?_⟩
    rcases h with h | h <;> simp [storyOf, thumbOf, h]
  · intro c cs
    exact bestCand_first_max cs c

/-- Witness for C3: on a media-type-1 item with candidates 100x100 (A)
and 300x300 (B), extraction succeeds and the thumbnail is B. -/
theorem extractor_thumbnail_max_area_witness :
    extract_story itemImage.toJ = some (storyOf itemImage)
    ∧ (storyOf itemImage).thumbnail_url = jOfOptStr (bestCand candA [candB]).url
    ∧ jOfOptStr (bestCand candA [candB]).url = .str "B" :=
  ⟨(extractor_thumbnail_max_area.1 itemImage candA [candB] rfl).1,
   (extractor_thumbnail_max_area.1 itemImage candA [candB] rfl).2,
   rfl⟩

/-- Claim C4: `video_url` is set only when the raw media type equals 2
and a video-candidate list is present and non-empty, again by maximal
area; in particular a media-type-1 item with a populated video list
still extracts with `video_url = None`. -/
theorem extractor_video_only_for_video :
    (∀ (r : RawItem) (c : RawCand) (cs : List RawCand),
        pyEq (r.media_type.getD .null) (.num 2) = true →
        r.video_versions = some (c :: cs) →
        extract_story r.toJ = some (storyOf r)
        ∧ (storyOf r).video_url = jOfOptStr (bestCand c cs).url)
    ∧ (∀ r : RawItem,
        pyEq (r.media_type.getD .null) (.num 2) = false ∨
          r.video_versions = none ∨ r.video_versions = some [] →
        extract_story r.toJ = some (storyOf r)
        ∧ (storyOf r).video_url = .null)
    ∧ (∀ (r : RawItem) (l : List RawCand),
        r.media_type = some (.num 1) → r.video_versions = some l →
        extract_story r.toJ = some (storyOf r)
        ∧ (storyOf r).video_url = .null) := by
  refine ⟨?_, ?_, ?_⟩
  · intro r c cs h2 hv
    exact ⟨extract_toJ r, by simp [storyOf, vidOf, h2, hv]⟩
  · intro r h
    refine ⟨extract_toJ r, ?_⟩
    rcases h with h | h | h
    · simp [storyOf, vidOf, h]
    · simp [storyOf, vidOf, h]
    · by_cases h2 : pyEq (r.media_type.getD .null) (.num 2) = true <;>
        simp [storyOf, vidOf, h, h2]
  · intro r l h1 hv
    refine ⟨extract_toJ r, ?_⟩
    simp [storyOf, vidOf, h1, hv, pyEq, toNum]

/-- Witness for C4: the video item selects V; the same item as media
type 1 with the same populated video list yields `video_url = None`. -/
theorem extractor_video_only_for_video_witness :
    extract_story itemVideo.toJ = some (storyOf itemVideo)
    ∧ (storyOf itemVideo).video_url = .str "V"
    ∧ extract_story itemImage.toJ = some (storyOf itemImage)
    ∧ (storyOf itemImage).video_url = .null :=
  ⟨(extractor_video_only_for_video.1 itemVideo candV [] rfl rfl).1,
   ((extractor_video_only_for_video.1 itemVideo candV [] rfl rfl).2).trans rfl,
   (extractor_video_only_for_video.2.2 itemImage [candV] rfl rfl).1,
   (extractor_video_only_for_video.2.2 itemImage [candV] rfl rfl).2⟩

/-- The boolean substring test agrees with the contiguous-infix
relation. -/
theorem subIn_iff (p s : List Char) : subIn p s = true ↔ p <:+: s := by
  induction s with
  | nil =>
    simp [subIn, List.isEmpty_iff]
  | cons c t ih =>
    simp [subIn, Bool.or_eq_true, List.isPrefixOf_iff_prefix, ih,
      List.infix_cons_iff]

/-- An occurrence of a pattern without dropped characters survives
`dropWhile`. -/
theorem infix_dropWhile_of_not (f : Char → Bool) (p : List Char)
    (hp : ∀ c ∈ p, f c = false) :
    ∀ s : List Char, p <:+: s → p <:+: s.dropWhile f := by
  intro s
  induction s with
  | nil => simp
  | cons c t ih =>
    intro hs
    rcases List.infix_cons_iff.mp hs with hpre | hinf
    · cases hfc : f c with
      | false => simpa [List.dropWhile, hfc] using hs
      | true =>
        cases p with
        | nil => simp
        | cons d p2 =>
          rcases hpre with ⟨rest, hrest⟩
          have hdc : d = c := by
            injection hrest with h1 _
          rw [List.dropWhile, hfc]
          have := hp d (List.mem_cons_self d p2)
          rw [hdc] at this
          rw [this] at hfc
          cases hfc
    · cases hfc : f c with
      | false =>
        rw [List.dropWhile, hfc]
        exact List.infix_cons_iff.mpr (Or.inr hinf)
      | true =>
        rw [List.dropWhile, hfc]
        exact ih hinf

/-- An occurrence of a whitespace-free pattern survives `str.strip()`. -/
theorem subIn_stripWs (p s : List Char)
    (hp : ∀ c ∈ p, isPySpace c = false) (h : subIn p s = true) :
    subIn p (pyStripWs s) = true := by
  rw [subIn_iff] at h ⊢
  unfold pyStripWs
  have h1 : p <:+: s.dropWhile isPySpace :=
    infix_dropWhile_of_not isPySpace p hp s h
  have h2 : p.reverse <:+: (s.dropWhile isPySpace).reverse :=
    List.reverse_infix.mpr h1
  have hp2 : ∀ c ∈ p.reverse, isPySpace c = false := by
    intro c hc
    exact hp c (List.mem_reverse.mp hc)
  have h3 : p.reverse <:+: (s.dropWhile isPySpace).reverse.dropWhile isPySpace :=
    infix_dropWhile_of_not isPySpace p.reverse hp2 _ h2
  have := List.reverse_infix.mpr h3
  simpa using this

/-- The stripped string is an infix of the original. -/
theorem stripWs_infix_self (s : List Char) : pyStripWs s <:+: s := by
  unfold pyStripWs
  have h1 : (s.dropWhile isPySpace).reverse.dropWhile isPySpace <:+
      (s.dropWhile isPySpace).reverse := List.dropWhile_suffix isPySpace
  have h2 := List.reverse_prefix.mpr h1
  rw [List.reverse_reverse] at h2
  exact h2.isInfix.trans (List.dropWhile_suffix isPySpace).isInfix

/-- Substring containment in the stripped string implies containment in
the original. -/
theorem subIn_of_subIn_stripWs (p s : List Char)
    (h : subIn p (pyStripWs s) = true) : subIn p s = true := by
  rw [subIn_iff] at h ⊢
  exact h.trans (stripWs_infix_self s)

/-- Every character of the service domain is non-whitespace. -/
theorem igDomain_no_space : ∀ c ∈ igDomain, isPySpace c = false := by
  decide

/-- Without the bracket raise, `urlsplit` returns the unvalidated split
of the same URL. -/
theorem urlsplitM_eq_NB (url : List Char)
    (h : bracketMismatch (urlsplitNB url).netloc = false)
    (h2 : checknetlocRaises (urlsplitNB url).netloc = false) :
    urlsplitM url = .ok (urlsplitNB url) := by
  unfold urlsplitM urlsplitNB at *
  rcases hs : schemeSplit (sanitizeUrl url) with ⟨sch, u2⟩
  rcases hn : netlocChunk u2 with ⟨nl, u3⟩
  rcases hf : fragQuerySplit u3 with ⟨p0, qf⟩
  simp only [hs, hn, hf] at h h2 ⊢
  simp [h, h2]

/-- The segment returned by `segAfterFirst` is one of the segments. -/
theorem segAfterFirst_mem (tok v : List Char) :
    ∀ parts : List (List Char), segAfterFirst tok parts = some v → v ∈ parts := by
  intro parts
  induction parts with
  | nil => simp [segAfterFirst]
  | cons p rest ih =>
    intro h
    by_cases hp : p = tok
    · simp only [segAfterFirst, if_pos hp] at h
      exact List.mem_cons_of_mem p (List.mem_of_mem_head? h)
    · simp only [segAfterFirst, if_neg hp] at h
      exact List.mem_cons_of_mem p (ih h)

/-- The branching step only ever returns a username that is one of its
path segments, verbatim. -/
theorem classifySegs_username_mem (parts : List (List Char)) (u : List Char)
    (h : classifySegs parts = .ok (.username u)) : u ∈ parts := by
  unfold classifySegs at h
  by_cases h1 : parts.contains "highlights".data
  · simp only [h1, if_true] at h
    cases hseg : segAfterFirst "highlights".data parts <;> simp [hseg] at h
  · simp only [h1, Bool.false_eq_true, if_false] at h
    by_cases h2 : parts.contains "stories".data
    · simp only [h2, if_true] at h
      cases hseg : segAfterFirst "stories".data parts with
      | none => simp [hseg] at h
      | some v =>
        simp only [hseg, Except.ok.injEq, InputRef.username.injEq] at h
        exact h ▸ segAfterFirst_mem _ _ _ hseg
    · simp only [h2, Bool.false_eq_true, if_false] at h
      cases parts with
      | nil => simp at h
      | cons p rest =>
        simp only [Except.ok.injEq, InputRef.username.injEq] at h
        exact h ▸ List.mem_cons_self p rest

/-- For a bracket-free domain-containing input, the classifier equals
the claim-side segment branching. -/
theorem bracketFree_mismatch (raw : List Char)
    (hb : netlocBracketFree raw = true) :
    bracketMismatch (urlsplitNB (pyStripWs raw)).netloc = false := by
  simp only [netlocBracketFree] at hb
  unfold bracketMismatch
  cases hc1 : (urlsplitNB (pyStripWs raw)).netloc.contains '[' <;>
    cases hc2 : (urlsplitNB (pyStripWs raw)).netloc.contains ']' <;>
    simp_all

theorem parse_eq_spec (raw : List Char) (h : subIn igDomain raw = true)
    (hb : netlocBracketFree raw = true)
    (hn : checknetlocRaises (urlsplitNB (pyStripWs raw)).netloc = false) :
    parse_instagram_input raw = classifySpecFull raw := by
  have hstrip : subIn igDomain (pyStripWs raw) = true :=
    subIn_stripWs igDomain raw igDomain_no_space h
  have hbm := bracketFree_mismatch raw hb
  unfold parse_instagram_input classifySpecFull specSegs specPath
  simp only [hstrip, if_true, urlparseM, urlsplitM_eq_NB _ hbm hn]
  by_cases hg : (urlsplitNB (pyStripWs raw)).scheme ∈ uses_params ∧
      ';' ∈ (urlsplitNB (pyStripWs raw)).path
  · simp [hg]
  · simp [hg]

/-- For a domain-containing, bracket-free input whose netloc fails the
NFKC check, the classifier surfaces the NFKC ValueError. -/
theorem parse_nfkc_error (raw : List Char) (h : subIn igDomain raw = true)
    (hbm : bracketMismatch (urlsplitNB (pyStripWs raw)).netloc = false)
    (hn : checknetlocRaises (urlsplitNB (pyStripWs raw)).netloc = true) :
    parse_instagram_input raw =
      .error (.valueError (nfkcErrMsg (urlsplitNB (pyStripWs raw)).netloc)) := by
  have hstrip : subIn igDomain (pyStripWs raw) = true :=
    subIn_stripWs igDomain raw igDomain_no_space h
  unfold parse_instagram_input
  simp only [hstrip, if_true, urlparseM]
  unfold urlsplitM
  unfold urlsplitNB at hbm hn ⊢
  rcases hs : schemeSplit (sanitizeUrl (pyStripWs raw)) with ⟨sch, u2⟩
  rcases hnc : netlocChunk u2 with ⟨nl, u3⟩
  rcases hf : fragQuerySplit u3 with ⟨p0, qf⟩
  simp only [hs, hnc, hf] at hbm hn ⊢
  simp [hbm, hn]

/-- Counterexample to claim C6: the input contains the service domain
and has a stories path with a following segment, so the claim predicts
`Username("a")`, but URL parsing raises on the unmatched bracket and the
classifier surfaces `ValueError("Invalid IPv6 URL")` instead. -/
theorem classifier_bracket_counterexample :
    subIn igDomain bracketUrl = true
    ∧ parse_instagram_input bracketUrl = .error (.valueError "Invalid IPv6 URL")
    ∧ classifySpecFull bracketUrl = .ok (.username "a".data) :=
  ⟨rfl, rfl, rfl⟩

/-- Claim C6 (amended): for every input containing the service domain
whose netloc is bracket-free and passes the NFKC netloc check, the
classifier splits the URL path into non-empty segments and branches
exactly as the claim states: a `highlights` segment yields the
following segment as highlight ID, else a `stories` segment yields the
following segment as username, else the first segment is the username,
and a missing following segment is a `ValueError`.  Inputs with an
unmatched bracket in the netloc instead fail with
`ValueError("Invalid IPv6 URL")`, and bracket-free inputs whose
non-ASCII netloc contains a character that NFKC-normalizes to a URL
delimiter fail with the NFKC `ValueError`, both raised by URL parsing
before any segment logic. -/
theorem classifier_url_branching :
    (∀ raw : List Char, subIn igDomain raw = true →
        netlocBracketFree raw = true →
        checknetlocRaises (urlsplitNB (pyStripWs raw)).netloc = false →
        parse_instagram_input raw = classifySpecFull raw)
    ∧ (∀ raw : List Char, subIn igDomain raw = true →
        bracketMismatch (urlsplitNB (pyStripWs raw)).netloc = true →
        parse_instagram_input raw = .error (.valueError "Invalid IPv6 URL"))
    ∧ (∀ raw : List Char, subIn igDomain raw = true →
        netlocBracketFree raw = true →
        checknetlocRaises (urlsplitNB (pyStripWs raw)).netloc = true →
        parse_instagram_input raw =
          .error (.valueError
            (nfkcErrMsg (urlsplitNB (pyStripWs raw)).netloc))) := by
  refine ⟨parse_eq_spec, ?_, ?_⟩
  · intro raw h hbm
    have hstrip : subIn igDomain (pyStripWs raw) = true :=
      subIn_stripWs igDomain raw igDomain_no_space h
    unfold parse_instagram_input
    simp only [hstrip, if_true, urlparseM]
    unfold urlsplitM
    unfold urlsplitNB at hbm
    rcases hs : schemeSplit (sanitizeUrl (pyStripWs raw)) with ⟨sch, u2⟩
    rcases hn : netlocChunk u2 with ⟨nl, u3⟩
    rcases hf : fragQuerySplit u3 with ⟨p0, qf⟩
    simp only [hs, hn, hf] at hbm ⊢
    simp [hbm]
  · intro raw h hb hn
    exact parse_nfkc_error raw h (bracketFree_mismatch raw hb) hn

/-- Witness for the amended C6: a well-formed highlight URL classifies
to its highlight ID, and a netloc beginning with the account-of sign
(which NFKC-normalizes to a string containing a slash) surfaces the
NFKC ValueError. -/
theorem classifier_url_branching_witness :
    parse_instagram_input "https://www.instagram.com/highlights/123".data =
      classifySpecFull "https://www.instagram.com/highlights/123".data
    ∧ classifySpecFull "https://www.instagram.com/highlights/123".data =
      .ok (.highlight "123".data)
    ∧ parse_instagram_input "https://\u2100instagram.com/stories/a".data =
      .error (.valueError (nfkcErrMsg
        (urlsplitNB
          (pyStripWs "https://\u2100instagram.com/stories/a".data)).netloc)) :=
  ⟨classifier_url_branching.1 _ rfl rfl rfl, rfl,
   classifier_url_branching.2.2 _ rfl rfl rfl⟩

/-- Claim C10: in the URL branch the returned username is the matched
path segment verbatim (it is one of the raw non-empty segments and
agrees with the claim-side branching, which applies no case folding);
lowercasing and stripping of every leading at-sign happen only in the
plain-handle branch, and `get_user_id` itself re-normalizes by
lowercasing, stripping whitespace, then removing every leading at-sign,
so the normalized name never starts with one. -/
theorem classifier_verbatim_resolver_normalizes :
    (∀ (raw u : List Char), subIn igDomain raw = true →
        netlocBracketFree raw = true →
        parse_instagram_input raw = .ok (.username u) →
        classifySpecFull raw = .ok (.username u) ∧ u ∈ specSegs raw)
    ∧ (∀ raw : List Char, subIn igDomain raw = false →
        parse_instagram_input raw =
          .ok (.username (lowerL ((pyStripWs raw).dropWhile (fun c => c == '@')))))
    ∧ (∀ u : List Char, normalize_username u =
        (pyStripWs (lowerL u)).dropWhile (fun c => c == '@'))
    ∧ (∀ u : List Char, (normalize_username u).head? ≠ some '@') := by
  refine ⟨?_, ?_, ?_, ?_⟩
  · intro raw u h hb hp
    cases hn : checknetlocRaises (urlsplitNB (pyStripWs raw)).netloc with
    | true =>
      rw [parse_nfkc_error raw h (bracketFree_mismatch raw hb) hn] at hp
      exact Except.noConfusion hp
    | false =>
      rw [parse_eq_spec raw h hb hn] at hp
      refine ⟨hp, ?_⟩
      unfold classifySpecFull at hp
      exact classifySegs_username_mem _ _ hp
  · intro raw h
    have hstrip : subIn igDomain (pyStripWs raw) = false := by
      cases hq : subIn igDomain (pyStripWs raw) with
      | false => rfl
      | true => rw [subIn_of_subIn_stripWs igDomain raw hq] at h; cases h
    unfold parse_instagram_input
    simp [hstrip]
  · intro u
    rfl
  · intro u
    unfold normalize_username
    generalize pyStripWs (lowerL u) = m
    induction m with
    | nil => simp
    | cons c t ih =>
      cases hc : (c == '@') with
      | true => simpa [List.dropWhile, hc] using ih
      | false =>
        simp only [List.dropWhile, hc, List.head?_cons, ne_eq,
          Option.some.injEq]
        intro hcc
        rw [hcc] at hc
        simp at hc

/-- Witness for C10: a mixed-case stories URL keeps its segment
verbatim, while the same name as a plain handle is at-stripped and
lowercased; a doubly-at-prefixed handle normalizes without any leading
at-sign. -/
theorem classifier_verbatim_resolver_normalizes_witness :
    parse_instagram_input "https://instagram.com/stories/MyName".data =
      .ok (.username "MyName".data)
    ∧ "MyName".data ∈ specSegs "https://instagram.com/stories/MyName".data
    ∧ parse_instagram_input "@@MyName".data =
        .ok (.username (lowerL ((pyStripWs "@@MyName".data).dropWhile
          (fun c => c == '@'))))
    ∧ lowerL ((pyStripWs "@@MyName".data).dropWhile (fun c => c == '@')) =
        "myname".data
    ∧ normalize_username "@@MyName".data = "myname".data :=
  ⟨rfl,
   (classifier_verbatim_resolver_normalizes.1
     "https://instagram.com/stories/MyName".data "MyName".data rfl rfl rfl).2,
   classifier_verbatim_resolver_normalizes.2.1 "@@MyName".data rfl,
   rfl, rfl⟩

/-- Counterexample to claim C9: a URL whose userinfo contains an allowed
domain passes the gate and is fetched although no allowed-list entry is
a substring of its lowercased host (evil.com). -/
theorem download_gate_host_counterexample :
    download_media_gate userinfoUrl = .fetchUrl
    ∧ pyHostname userinfoUrl = "evil.com".data
    ∧ ALLOWED_DOWNLOAD_DOMAINS.all
        (fun d => !(subIn d (pyHostname userinfoUrl))) = true :=
  ⟨rfl, rfl, rfl⟩

/-- Claim C9 (amended): the download proxy fetches exactly the requests
with a non-empty URL passing validation, and validation succeeds exactly
when URL parsing succeeds and some allowed-list entry occurs as a
substring of the lowercased netloc (the authority component, including
any userinfo and port, rather than the bare host). -/
theorem download_gate_netloc_substring :
    ∀ url : List Char,
      (download_media_gate url = .fetchUrl ↔
        (url ≠ [] ∧ is_allowed_download_url url = true))
      ∧ (is_allowed_download_url url = true ↔
          ∃ r, urlparseM url = .ok r ∧
            ∃ d ∈ ALLOWED_DOWNLOAD_DOMAINS, subIn d (lowerL r.netloc) = true) := by
  intro url
  constructor
  · unfold download_media_gate
    cases url with
    | nil => simp
    | cons c t =>
      cases ha : is_allowed_download_url (c :: t) <;>
        simp [List.isEmpty, ha]
  · unfold is_allowed_download_url
    cases hu : urlparseM url with
    | error e => simp
    | ok r => simp [List.any_eq_true]

/-- Witness for the amended C9: a CDN URL is fetched, its netloc
containing the allowed domain cdninstagram.com. -/
theorem download_gate_netloc_substring_witness :
    download_media_gate "https://scontent.cdninstagram.com/v/i.jpg".data =
      .fetchUrl
    ∧ is_allowed_download_url "https://scontent.cdninstagram.com/v/i.jpg".data =
      true :=
  ⟨((download_gate_netloc_substring
      "https://scontent.cdninstagram.com/v/i.jpg".data).1).mpr
    ⟨by decide, rfl⟩,
   rfl⟩

end StoryVPS
